import Mathlib

/-
Verification of the native-to-managed runtime bridge (bevy_cs_managed).

The embedding below is a shallow model of src/src/runtime.rs and
src/src/error.rs.  Opaque native pointers are modelled as Nat (0 = null).
The managed side of the bridge (implemented in Runtime.cs, which is not
part of src/) is treated as an oracle: each bridge call takes the reply
the managed entry point produced (out-pointer written to the out
parameter and the final value of the status out-parameter, which the
Rust code initialises to -1 and checks with `err > 0`).  Where a claim
depends on managed-side behaviour, that behaviour is modelled from the
specification and marked as such in the doc comment.

Resource effects (scope unload, buffer free) are made observable as
explicit event traces.
-/

namespace CsManaged

/-- Error taxonomy, from src/src/error.rs lines 1-17.  The payloads of the
native-local variants Io and Json (std::io::Error, serde_json::Error) are
not inspected by any bridge logic and are dropped in the model. -/
inductive Error where
  | ClassNotFound
  | MethodNotFound
  | FieldNotFound
  | PropertyNotFound
  | ReadonlyField
  | MissingGetter
  | MissingSetter
  | MissingRequiredArgument
  | PathNotFound
  | AssemblyNotLoaded
  | ClassNotRegistered
  | UnknownManaged
  | Io
  | Json
deriving DecidableEq

/-- Status-to-error mapping, from src/src/error.rs lines 19-36
(impl From of i32 for Error): statuses 1-11 map to the named variants,
everything else falls to UnknownManaged.  Call sites only apply it to
statuses strictly greater than 0. -/
def Error.fromStatus (value : Int) : Error :=
  if value = 1 then .ClassNotFound
  else if value = 2 then .MethodNotFound
  else if value = 3 then .FieldNotFound
  else if value = 4 then .PropertyNotFound
  else if value = 5 then .ReadonlyField
  else if value = 6 then .MissingGetter
  else if value = 7 then .MissingSetter
  else if value = 8 then .MissingRequiredArgument
  else if value = 9 then .PathNotFound
  else if value = 10 then .AssemblyNotLoaded
  else if value = 11 then .ClassNotRegistered
  else .UnknownManaged

/-- Observable resource events emitted by bridge operations: a scope handle
passed to the managed Unload entry point, a buffer handle passed to Free,
a Class/Method/Object handle passed to Destroy. -/
inductive Event where
  | unloadScope (handle : Nat)
  | free (handle : Nat)
  | destroy (handle : Nat)
deriving DecidableEq, BEq

/-- Scope wrapper, from src/src/runtime.rs lines 646-654.  The Rust struct
also stores the unload function pointer; all scopes share the single
library Unload entry point, so only the opaque handle is modelled. -/
structure Scope where
  inner : Nat
deriving DecidableEq

/-- Assembly wrapper (runtime.rs lines 667-674).  It has no Drop impl:
its managed memory is reclaimed only when the owning scope unloads. -/
structure Assembly where
  inner : Nat
deriving DecidableEq

/-- Class wrapper (runtime.rs lines 681-689); the stored destroy function
pointer is the shared library Destroy entry point and is not modelled. -/
structure Class where
  inner : Nat
deriving DecidableEq

/-- Method wrapper (runtime.rs lines 701-709); as with Class, only the
opaque handle is modelled. -/
structure Method where
  inner : Nat
deriving DecidableEq

/-- Object wrapper (runtime.rs lines 721-729); the function-pointer fields
it carries are the shared library entry points and are not modelled. -/
structure Object where
  inner : Nat
deriving DecidableEq

/-- A reference-counted method cache entry: Rc of Method from runtime.rs
line 57.  rcId models the identity of the Rc allocation (a fresh id is
handed out each time the bridge wraps a resolved Method in Rc::new), so
two entries share a handle exactly when they share the Rc. -/
structure RcMethod where
  rcId : Nat
  method : Method
deriving DecidableEq

/-- Field metadata (runtime.rs lines 827-833).  CustomAttributes carry
arbitrary JSON values never inspected by the bridge; they are modelled as
opaque strings. -/
structure Field where
  name : String
  is_static : Bool
  custom_attributes : List String
deriving DecidableEq

/-- Property metadata (runtime.rs lines 835-843). -/
structure Property where
  name : String
  is_static : Bool
  custom_attributes : List String
  can_read : Bool
  can_write : Bool
deriving DecidableEq

/-- MetaData (runtime.rs lines 820-825); Default gives empty lists. -/
structure MetaData where
  fields : List Field
  properties : List Property
deriving DecidableEq

/-- Script type entry, from struct Type in runtime.rs lines 53-59 (the
name Type is reserved in Lean).  cls is the source field named class. -/
structure ScriptType where
  name : String
  cls : Class
  methods : List ((String × Int) × RcMethod)
  metadata : MetaData
deriving DecidableEq

/-- Script component (runtime.rs lines 116-120); inst is the source field
named instance (a Lean keyword). -/
structure Script where
  index : Nat
  inst : Object
deriving DecidableEq

/-- A bound invokable (runtime.rs lines 61-65); the invoke function
pointer it carries is always library.runtime_invoke and is not modelled. -/
structure Invokable where
  inst : Object
  method : RcMethod
deriving DecidableEq

/-- The two assembly slots (runtime.rs lines 33-37). -/
inductive AssemblyType where
  | Engine
  | Scripts
deriving DecidableEq

/-- The registry state of Runtime (runtime.rs lines 136-149) relevant to
the bridge protocol: the current scope, the loaded assemblies, and the
reflection cache (name-to-index map plus the script entry list).  Path,
version, host and function-table fields carry no protocol state and are
omitted.  HashMaps are modelled as association lists whose lookup returns
the most recently inserted binding. -/
structure Runtime where
  scope : Option Scope
  assemblies : List (AssemblyType × Assembly)
  fullname_to_script : List (String × Nat)
  scripts : List ScriptType
deriving DecidableEq

/-- Association-list lookup modelling HashMap::get: first (most recent)
binding wins. -/
def assocLookup {κ β : Type} [DecidableEq κ] (k : κ) : List (κ × β) → Option β
  | [] => none
  | (k', v) :: rest => if k' = k then some v else assocLookup k rest

/-- Reply of a managed host call that writes an out-pointer and a status:
out is the written pointer (0 = null, i.e. the pointer was left null) and
err is the final value of the i32 status out-parameter (the Rust callers
initialise it to -1 and treat only positive values as errors). -/
structure HostReply where
  out : Nat
  err : Int
deriving DecidableEq

/-- Shared status check appearing verbatim at every fallible call site in
runtime.rs (lines 78, 506, 523, 536, 557, 574, 587, 621, 637, 743, 756,
781, 794): a positive post-call status is surfaced as a typed error. -/
def statusToResult (err : Int) : Except Error Unit :=
  if err > 0 then .error (Error.fromStatus err) else .ok ()

/-- NUL character appended by the string-preparation code. -/
def nulChar : Char := Char.ofNat 0

/-- Name preparation used by RuntimeLibrary::get_class (runtime.rs lines
516-519) and RuntimeLibrary::get_method (lines 567-570): a NUL is pushed
unless the string STARTS with one (the code checks starts_with of the NUL
character). -/
def prepLeadingNul (s : List Char) : List Char :=
  if s.head? = some nulChar then s else s ++ [nulChar]

/-- Name/path preparation used by load_from_path (lines 498-501),
Object::set_field_value (734-737), get_field_value (748-751),
set_property_value (772-775), get_property_value (786-789),
RuntimeLibrary::set_field_value (607-610) and to_char_t in hostfxr.rs:
a NUL is pushed unless the string ENDS with one. -/
def prepTrailingNul (s : List Char) : List Char :=
  if s.getLast? = some nulChar then s else s ++ [nulChar]

/-- Managed-side read of a NUL-terminated byte sequence (CStr::from_ptr):
the bytes before the first NUL. -/
def takeUntilNul (s : List Char) : List Char :=
  s.takeWhile (fun c => c ≠ nulChar)

/-- RuntimeLibrary::get_class result logic (runtime.rs lines 515-530):
positive status is a typed error, a null out-pointer is a negative
result, otherwise a Class wrapper around the written pointer. -/
def RuntimeLibrary.get_class (reply : HostReply) : Except Error (Option Class) :=
  if reply.err > 0 then .error (Error.fromStatus reply.err)
  else if reply.out = 0 then .ok none
  else .ok (some ⟨reply.out⟩)

/-- RuntimeLibrary::new_object result logic (runtime.rs lines 532-551). -/
def RuntimeLibrary.new_object (reply : HostReply) : Except Error (Option Object) :=
  if reply.err > 0 then .error (Error.fromStatus reply.err)
  else if reply.out = 0 then .ok none
  else .ok (some ⟨reply.out⟩)

/-- RuntimeLibrary::get_method result logic (runtime.rs lines 561-581):
positive status is a typed error; a null out-pointer is the negative
(method absent) result; otherwise a Method wrapper. -/
def RuntimeLibrary.get_method (reply : HostReply) : Except Error (Option Method) :=
  if reply.err > 0 then .error (Error.fromStatus reply.err)
  else if reply.out = 0 then .ok none
  else .ok (some ⟨reply.out⟩)

/-- Reply of a managed call returning a JSON buffer: out is the buffer
pointer (0 = null), err the final status, and decoded the result of the
native serde_json decode of the buffer payload (none = malformed JSON). -/
structure FieldReply (V : Type) where
  out : Nat
  err : Int
  decoded : Option V
deriving DecidableEq

/-- Result and free-event trace of Object::get_field_value (runtime.rs
lines 747-769) after the managed call replied; Object::get_property_value
(lines 785-807) has the identical shape.  Note the decode-failure path:
the question-mark operator on serde_json::from_str returns before the
free call is reached, so no free event is emitted there. -/
def fieldCallResult {V : Type} (reply : FieldReply V) :
    Except Error (Option V) × List Event :=
  if reply.err > 0 then (.error (Error.fromStatus reply.err), [])
  else if reply.out = 0 then (.ok none, [])
  else
    match reply.decoded with
    | none => (.error .Json, [])
    | some v => (.ok (some v), [Event.free reply.out])

/-- Reply of the managed GetMetaData call. -/
structure MetaReply where
  out : Nat
  err : Int
  decoded : Option MetaData
deriving DecidableEq

/-- Result and free-event trace of RuntimeLibrary::get_meta_data
(runtime.rs lines 583-599): positive status errors; a non-null buffer is
decoded (the decode-failure question mark again skips the free call) and
then freed; a null buffer yields the Default metadata. -/
def metaCallResult (reply : MetaReply) : Except Error MetaData × List Event :=
  if reply.err > 0 then (.error (Error.fromStatus reply.err), [])
  else if reply.out ≠ 0 then
    match reply.decoded with
    | none => (.error .Json, [])
    | some v => (.ok v, [Event.free reply.out])
  else (.ok ⟨[], []⟩, [])

/-- Unload events emitted by the Drop impl for Scope (runtime.rs lines
660-665): the drop calls unload once with the wrapped handle. -/
def Scope.dropEvents (s : Scope) : List Event :=
  [Event.unloadScope s.inner]

/-- Error surfaced by the Drop impl for Scope (runtime.rs lines 660-665)
to whoever caused the drop: the status the unload call wrote into the
local err variable is discarded (drop returns no value), so no error is
ever surfaced, whatever the status was. -/
def Scope.dropSurfaced (_s : Scope) (_status : Int) : Option Error :=
  none

/-- Runtime::create (runtime.rs lines 226-234): resolves the logical name
in fullname_to_script; an unregistered name fails with ClassNotRegistered
before any managed call; otherwise the registered entry is indexed (the
Rust indexing self.scripts of index panics on a stale index, modelled as
the none result) and the managed New entry point is consulted — reply is
what it produced.  A null object with success status is UnknownManaged. -/
def Runtime.create (rt : Runtime) (name : String) (reply : HostReply) :
    Option (Except Error Script) :=
  match assocLookup name rt.fullname_to_script with
  | some index =>
    match rt.scripts[index]? with
    | none => none
    | some _script =>
      some (match RuntimeLibrary.new_object reply with
        | .error e => .error e
        | .ok none => .error .UnknownManaged
        | .ok (some obj) => .ok ⟨index, obj⟩)
  | none => some (.error .ClassNotRegistered)

/-- Runtime::register (runtime.rs lines 236-257): requires the Scripts
assembly to be loaded (AssemblyNotLoaded otherwise), resolves the class
by name (classReply is the managed GetClass reply; a null class is
ClassNotFound), fetches the metadata (metaReply; decode failures
propagate), then appends a new entry at index scripts.len() and inserts
the name-to-index binding. -/
def Runtime.register (rt : Runtime) (name : String)
    (classReply : HostReply) (metaReply : MetaReply) :
    Except Error Unit × Runtime :=
  match assocLookup AssemblyType.Scripts rt.assemblies with
  | none => (.error .AssemblyNotLoaded, rt)
  | some _asm =>
    match RuntimeLibrary.get_class classReply with
    | .error e => (.error e, rt)
    | .ok none => (.error .ClassNotFound, rt)
    | .ok (some cls) =>
      match metaCallResult metaReply with
      | (.error e, _) => (.error e, rt)
      | (.ok md, _) =>
        let index := rt.scripts.length
        (.ok (), { rt with
            fullname_to_script := (name, index) :: rt.fullname_to_script,
            scripts := rt.scripts ++ [⟨name, cls, [], md⟩] })

/-- Runtime::clear (runtime.rs lines 268-280): the registry is purged
first (scripts truncated, names and assemblies cleared), then the scope
is replaced by newScope (the handle the managed CreateScope returned).
If an old scope was present the code calls unload on it explicitly and
surfaces a positive status (unloadStatus is the value the managed Unload
wrote) as a typed error; then, by Rust drop semantics, the moved-out old
Scope is dropped at the end of the if-let block and its Drop impl (lines
660-665) calls unload on the same handle again — on the error path as
well.  The third component is the trace of unload events.  Destroy events
from the dropped Class/Method entries of the truncated registry are not
traced here. -/
def Runtime.clear (rt : Runtime) (newScope : Scope) (unloadStatus : Int) :
    Except Error Unit × Runtime × List Event :=
  let purged : Runtime :=
    { scope := some newScope, assemblies := [],
      fullname_to_script := [], scripts := [] }
  match rt.scope with
  | none => (.ok (), purged, [])
  | some old =>
    let events := Event.unloadScope old.inner :: Scope.dropEvents old
    if unloadStatus > 0 then
      (.error (Error.fromStatus unloadStatus), purged, events)
    else
      (.ok (), purged, events)

/-- Runtime::get_method (runtime.rs lines 282-314): a stale script index
returns the negative result; otherwise the (name, arity) key is looked up
in the entry's method cache — a hit returns an Invokable sharing the
cached Rc without consulting the managed side; a miss consults the
managed GetMethod (reply), returns the negative result on a null method,
and otherwise wraps the method in a fresh Rc (identity fresh), inserts it
under the key and returns the bound Invokable.  The second component is
the updated runtime (the cache lives in a RefCell, mutated through a
shared reference in the source). -/
def Runtime.get_method (rt : Runtime) (handle : Script) (name : String)
    (args : Int) (reply : HostReply) (fresh : Nat) :
    Except Error (Option Invokable) × Runtime :=
  match rt.scripts[handle.index]? with
  | some script =>
    match assocLookup (name, args) script.methods with
    | some rc => (.ok (some ⟨handle.inst, rc⟩), rt)
    | none =>
      match RuntimeLibrary.get_method reply with
      | .error e => (.error e, rt)
      | .ok none => (.ok none, rt)
      | .ok (some m) =>
        let rc : RcMethod := ⟨fresh, m⟩
        let script' : ScriptType :=
          { script with methods := ((name, args), rc) :: script.methods }
        (.ok (some ⟨handle.inst, rc⟩),
         { rt with scripts := rt.scripts.set handle.index script' })
  | none => (.ok none, rt)

/-- Runtime::get_meta_data (runtime.rs lines 316-319): the script entry is
fetched with self.scripts.get(handle.index).unwrap() — the none result
models the unwrap panic on a stale index; otherwise the cached metadata
is returned. -/
def Runtime.get_meta_data (rt : Runtime) (handle : Script) : Option MetaData :=
  (rt.scripts[handle.index]?).map ScriptType.metadata

/-- Managed-side field storage, keyed by (object handle, field name as
read up to the NUL terminator).  Modelled from the spec: the managed
SetFieldValue/GetFieldValue entry points live in Runtime.cs, which is not
under src/; per the spec they store and return the member's managed-side
value, with the value crossing the boundary as a JSON encoding the caller
decodes into a structurally compatible native type. -/
structure FieldStore (V : Type) where
  entries : List ((Nat × List Char) × V)
deriving DecidableEq

/-- Modelled from the spec: the managed SetFieldValue entry point
(Runtime.cs, not under src/) reads the NUL-terminated field name, stores
the caller's value for that field of that object and reports status 0,
for a value whose shape matches the field's declared managed type. -/
def managedSetField {V : Type} (st : FieldStore V) (obj : Nat)
    (cname : List Char) (v : V) : Int × FieldStore V :=
  (0, ⟨((obj, takeUntilNul cname), v) :: st.entries⟩)

/-- Modelled from the spec: the managed GetFieldValue entry point
(Runtime.cs, not under src/) returns, for a stored field, status 0 and a
fresh non-null buffer whose JSON payload decodes back to the stored
value (the wire codec round-trips per the §6 value wire format); for an
absent field it reports FieldNotFound (status 3) with a null buffer.
The reply triple matches FieldReply: (buffer, status, decoded payload). -/
def managedGetField {V : Type} (st : FieldStore V) (obj : Nat)
    (cname : List Char) : FieldReply V :=
  match assocLookup (obj, takeUntilNul cname) st.entries with
  | some v => ⟨1, 0, some v⟩
  | none => ⟨0, 3, none⟩

/-- Object::set_field_value (runtime.rs lines 733-745): the name gets a
trailing NUL if it lacks one, the managed SetFieldValue is called with
the object handle, the prepared name and a raw pointer to the value, and
a positive status is surfaced as a typed error. -/
def Object.set_field_value {V : Type} (o : Object) (name : List Char)
    (v : V) (st : FieldStore V) : Except Error Unit × FieldStore V :=
  let (err, st') := managedSetField st o.inner (prepTrailingNul name) v
  (statusToResult err, st')

/-- Object::get_field_value (runtime.rs lines 747-769): the name gets a
trailing NUL if it lacks one, the managed GetFieldValue is called, and
the reply goes through the shared status/null/decode/free logic. -/
def Object.get_field_value {V : Type} (o : Object) (name : List Char)
    (st : FieldStore V) : Except Error (Option V) × List Event :=
  fieldCallResult (managedGetField st o.inner (prepTrailingNul name))

theorem assocLookup_cons_self {κ β : Type} [DecidableEq κ] (k : κ) (v : β)
    (l : List (κ × β)) : assocLookup k ((k, v) :: l) = some v := by
  simp [assocLookup]

theorem assocLookup_cons_ne {κ β : Type} [DecidableEq κ] {k k' : κ}
    (h : k' ≠ k) (v : β) (l : List (κ × β)) :
    assocLookup k ((k', v) :: l) = assocLookup k l := by
  simp [assocLookup, h]

theorem listGetNone {α : Type} :
    ∀ (l : List α) (i : Nat), l.length ≤ i → l[i]? = none := by
  intro l
  induction l with
  | nil => intro i _; rfl
  | cons x xs ih =>
    intro i h
    cases i with
    | zero => simp at h
    | succ n => simpa using ih n (by simpa using h)

theorem listGetIsSome {α : Type} :
    ∀ (l : List α) (i : Nat), i < l.length → (l[i]?).isSome = true := by
  intro l
  induction l with
  | nil => intro i h; simp at h
  | cons x xs ih =>
    intro i h
    cases i with
    | zero => simp
    | succ n => simpa using ih n (by simpa using h)

theorem listGetLt {α : Type} :
    ∀ (l : List α) (i : Nat) (a : α), l[i]? = some a → i < l.length := by
  intro l i a h
  by_contra hge
  rw [listGetNone l i (by omega)] at h
  cases h

theorem listGetSetSelf {α : Type} :
    ∀ (l : List α) (i : Nat) (a : α), i < l.length → (l.set i a)[i]? = some a := by
  intro l
  induction l with
  | nil => intro i a h; simp at h
  | cons x xs ih =>
    intro i a h
    cases i with
    | zero => simp
    | succ n => simpa [List.set] using ih n a (by simpa using h)

theorem listGetAppendLen {α : Type} :
    ∀ (l : List α) (a : α), (l ++ [a])[l.length]? = some a := by
  intro l a
  induction l with
  | nil => rfl
  | cons x xs ih => simp [ih]

/-- Runtime state with a live scope (handle 7), for exercising clear. -/
def rtClearDemo : Runtime :=
  { scope := some ⟨7⟩, assemblies := [], fullname_to_script := [], scripts := [] }

/-- C1: the claim says no bridge operation, including Runtime::clear, passes
the same handle to its release function twice.  Evaluating clear on a
runtime whose current scope holds handle 7 (with a successful unload
status) shows the handle is passed to the managed Unload twice: once by
the explicit call inside clear and once by the Drop impl of the moved-out
Scope at the end of the if-let block — refuting the exactly-once release
discipline for the Scope wrapper. -/
theorem clear_double_releases_scope :
    ((Runtime.clear rtClearDemo ⟨8⟩ 0).2.2).count (Event.unloadScope 7) = 2 := by
  rfl

/-- C8: the claim says every non-null returned buffer is freed exactly once
on every return path, including decode failures.  Evaluating the shared
read logic of get_field_value / get_property_value on a reply carrying a
non-null buffer (handle 5) whose payload fails the JSON decode shows the
call returns the Json error without emitting any free event: the
question-mark on the decode returns before the free call. -/
theorem field_read_skips_free_on_decode_failure :
    fieldCallResult (⟨5, 0, none⟩ : FieldReply Nat) = (.error .Json, []) ∧
    ((fieldCallResult (⟨5, 0, none⟩ : FieldReply Nat)).2).count (Event.free 5) = 0 := by
  exact ⟨rfl, rfl⟩

/-- C3 counterexample: the scope unload performed on drop receives a
positive status (7), yet the Drop impl surfaces no typed error — the
status is silently discarded, refuting the claim that every call exposing
a status out-parameter surfaces a non-zero status, including the scope
unload performed on drop. -/
theorem scope_drop_discards_status :
    (0 : Int) < 7 ∧ Scope.dropSurfaced ⟨5⟩ 7 = none := by
  exact ⟨by decide, rfl⟩

/-- C3 amended: statuses 1 through 11 map respectively to the eleven named
errors and any other positive status collapses to UnknownManaged; every
fallible call result surfaces a positive status as the corresponding
typed error — with the exception of the scope unload performed in Scope's
Drop impl, which discards the status (drop cannot return a value). -/
theorem status_mapping_and_propagation :
    (Error.fromStatus 1 = .ClassNotFound ∧ Error.fromStatus 2 = .MethodNotFound ∧
     Error.fromStatus 3 = .FieldNotFound ∧ Error.fromStatus 4 = .PropertyNotFound ∧
     Error.fromStatus 5 = .ReadonlyField ∧ Error.fromStatus 6 = .MissingGetter ∧
     Error.fromStatus 7 = .MissingSetter ∧ Error.fromStatus 8 = .MissingRequiredArgument ∧
     Error.fromStatus 9 = .PathNotFound ∧ Error.fromStatus 10 = .AssemblyNotLoaded ∧
     Error.fromStatus 11 = .ClassNotRegistered) ∧
    (∀ s : Int, 11 < s → Error.fromStatus s = .UnknownManaged) ∧
    (∀ err : Int, 0 < err → statusToResult err = .error (Error.fromStatus err)) ∧
    (∀ r : HostReply, 0 < r.err →
        RuntimeLibrary.get_class r = .error (Error.fromStatus r.err) ∧
        RuntimeLibrary.new_object r = .error (Error.fromStatus r.err) ∧
        RuntimeLibrary.get_method r = .error (Error.fromStatus r.err)) ∧
    (∀ r : FieldReply Nat, 0 < r.err →
        (fieldCallResult r).1 = .error (Error.fromStatus r.err)) ∧
    (∀ r : MetaReply, 0 < r.err →
        (metaCallResult r).1 = .error (Error.fromStatus r.err)) ∧
    (∀ (rt : Runtime) (s ns : Scope) (st : Int), rt.scope = some s → 0 < st →
        (Runtime.clear rt ns st).1 = .error (Error.fromStatus st)) ∧
    (∀ (s : Scope) (st : Int), Scope.dropSurfaced s st = none) := by
  refine ⟨⟨rfl, rfl, rfl, rfl, rfl, rfl, rfl, rfl, rfl, rfl, rfl⟩,
    ?_, ?_, ?_, ?_, ?_, ?_, ?_⟩
  · intro s hs
    unfold Error.fromStatus
    repeat rw [if_neg (by omega)]
  · intro err h
    unfold statusToResult
    rw [if_pos h]
  · intro r h
    unfold RuntimeLibrary.get_class RuntimeLibrary.new_object RuntimeLibrary.get_method
    exact ⟨by rw [if_pos h], by rw [if_pos h], by rw [if_pos h]⟩
  · intro r h
    unfold fieldCallResult
    rw [if_pos h]
  · intro r h
    unfold metaCallResult
    rw [if_pos h]
  · intro rt s ns st hs hst
    unfold Runtime.clear
    rw [hs]
    dsimp only
    rw [if_pos hst]
  · intro s st
    rfl

/-- Witness for the amended C3 statement at concrete inputs: status 12 is
an unmapped positive status and collapses to UnknownManaged, and the
shared status check surfaces status 5 as the ReadonlyField error. -/
theorem status_mapping_and_propagation_witness :
    Error.fromStatus 12 = .UnknownManaged ∧
    statusToResult 5 = .error .ReadonlyField := by
  have h := status_mapping_and_propagation
  exact ⟨h.2.1 12 (by decide), h.2.2.1 5 (by decide)⟩

/-- C7 counterexample: the name preparation of get_class (and of
RuntimeLibrary::get_method) appends a NUL to a name that already ends
with one, because its check looks at the first character — refuting the
claim that the bridge appends a terminator exactly when the caller's
string lacks one. -/
theorem leading_check_appends_despite_terminator :
    (['F', nulChar].getLast? = some nulChar) ∧
    prepLeadingNul ['F', nulChar] = ['F', nulChar, nulChar] := by
  constructor
  · rfl
  · unfold prepLeadingNul
    rw [if_neg (by decide)]
    rfl

/-- C7 amended: strings crossing the boundary always contain a NUL, so the
managed-side read terminates; the trailing-check sites (load_from_path,
field/property get/set) append a terminator exactly when the string does
not end with NUL, while get_class and RuntimeLibrary::get_method instead
append exactly when the string does not start with NUL (so a string that
already ends with NUL may receive a second terminator there). -/
theorem boundary_strings_nul_terminated (s : List Char) :
    prepTrailingNul s = (if s.getLast? = some nulChar then s else s ++ [nulChar]) ∧
    prepLeadingNul s = (if s.head? = some nulChar then s else s ++ [nulChar]) ∧
    nulChar ∈ prepTrailingNul s ∧ nulChar ∈ prepLeadingNul s := by
  refine ⟨rfl, rfl, ?_, ?_⟩
  · unfold prepTrailingNul
    split
    · next h => exact List.mem_of_mem_getLast? (by simp [h])
    · exact List.mem_append_right _ (by simp)
  · unfold prepLeadingNul
    split
    · next h => exact List.mem_of_mem_head? (by simp [h])
    · exact List.mem_append_right _ (by simp)

/-- C9: writing a field and reading it back round-trips — set_field_value
succeeds and the following get_field_value returns a value structurally
equal to the one written, for any value whose shape matches the field's
declared type (the managed store and wire codec are modelled from the
spec; the bridge's name preparation, status checks and null/decode
handling are from the source). -/
theorem set_get_field_roundtrip {V : Type} (o : Object) (name : List Char)
    (v : V) (st : FieldStore V) :
    (Object.set_field_value o name v st).1 = .ok () ∧
    (Object.get_field_value o name (Object.set_field_value o name v st).2).1
      = .ok (some v) := by
  constructor
  · rfl
  · unfold Object.get_field_value Object.set_field_value managedSetField managedGetField
    dsimp only
    rw [assocLookup_cons_self]
    rfl

/-- C2: on a cache miss that resolves a method, get_method installs the
method under the (name, arity) key and returns it; a second call with the
same name and arity returns an Invokable bound to the same shared Method
identity whatever the managed side would now answer (the cache is not
consulted across the boundary on a hit); and a call with the same name
but a different arity is unaffected by the installed entry — its outcome
is the same as on the state before the entry existed. -/
theorem get_method_deterministic_cache (rt : Runtime) (handle : Script)
    (name : String) (args : Int) (reply : HostReply) (fresh : Nat)
    (script : ScriptType)
    (hscript : rt.scripts[handle.index]? = some script)
    (hmiss : assocLookup (name, args) script.methods = none)
    (hout : reply.out ≠ 0) (herr : reply.err ≤ 0) :
    (Runtime.get_method rt handle name args reply fresh).1
      = .ok (some ⟨handle.inst, ⟨fresh, ⟨reply.out⟩⟩⟩) ∧
    (∀ (r2 : HostReply) (f2 : Nat),
      (Runtime.get_method (Runtime.get_method rt handle name args reply fresh).2
          handle name args r2 f2).1
        = .ok (some ⟨handle.inst, ⟨fresh, ⟨reply.out⟩⟩⟩)) ∧
    (∀ (args2 : Int), args2 ≠ args → ∀ (r3 : HostReply) (f3 : Nat),
      (Runtime.get_method (Runtime.get_method rt handle name args reply fresh).2
          handle name args2 r3 f3).1
        = (Runtime.get_method rt handle name args2 r3 f3).1) := by
  have hlt : handle.index < rt.scripts.length :=
    listGetLt _ _ _ hscript
  have hlib : RuntimeLibrary.get_method reply = .ok (some ⟨reply.out⟩) := by
    unfold RuntimeLibrary.get_method
    rw [if_neg (by omega), if_neg hout]
  have h1 : Runtime.get_method rt handle name args reply fresh
      = (.ok (some ⟨handle.inst, ⟨fresh, ⟨reply.out⟩⟩⟩),
         ⟨rt.scope, rt.assemblies, rt.fullname_to_script,
          rt.scripts.set handle.index
            ⟨script.name, script.cls,
             ((name, args), ⟨fresh, ⟨reply.out⟩⟩) :: script.methods,
             script.metadata⟩⟩) := by
    unfold Runtime.get_method
    rw [hscript]
    dsimp only
    rw [hmiss, hlib]
  refine ⟨by rw [h1], ?_, ?_⟩
  · intro r2 f2
    rw [h1]
    unfold Runtime.get_method
    rw [listGetSetSelf _ _ _ hlt]
    dsimp only
    rw [assocLookup_cons_self]
  · intro args2 hne r3 f3
    rw [h1]
    have hkey : ¬ (((name, args) : String × Int) = (name, args2)) :=
      fun h => hne (congrArg Prod.snd h).symm
    unfold Runtime.get_method
    rw [listGetSetSelf _ _ _ hlt, hscript]
    dsimp only
    rw [assocLookup_cons_ne hkey]
    cases assocLookup (name, args2) script.methods with
    | some rc2 => rfl
    | none =>
      dsimp only
      cases RuntimeLibrary.get_method r3 with
      | error e => rfl
      | ok o => cases o <;> rfl

/-- Script entry and runtime used to witness the C2 caching theorem. -/
def scriptDemo : ScriptType := ⟨"Player", ⟨2⟩, [], ⟨[], []⟩⟩

/-- Runtime holding one registered script, for the C2 witness. -/
def rtDemo : Runtime := ⟨some ⟨1⟩, [], [("Player", 0)], [scriptDemo]⟩

/-- Witness for the C2 theorem at concrete inputs: resolving a method (out
pointer 4, fresh identity 0) on a cache miss returns an Invokable bound
to that method. -/
theorem get_method_deterministic_cache_witness :
    (Runtime.get_method rtDemo ⟨0, ⟨9⟩⟩ "Update" 1 ⟨4, 0⟩ 0).1
      = .ok (some ⟨⟨9⟩, ⟨0, ⟨4⟩⟩⟩) := by
  exact (get_method_deterministic_cache rtDemo ⟨0, ⟨9⟩⟩ "Update" 1 ⟨4, 0⟩ 0
    scriptDemo rfl rfl (by decide) (by decide)).1

/-- C6: for a registered Script whose class does not carry the requested
method at the requested arity, get_method returns the negative result
Ok(None) and leaves the runtime untouched — never an error — given that
the managed GetMethod reports the absence as a null handle with a
non-positive status, which is how the spec fixes the missing managed
implementation (a method absent for every arity is never cached, hence
the empty-cache hypothesis). -/
theorem absent_method_negative_result (rt : Runtime) (handle : Script)
    (name : String) (args : Int) (reply : HostReply) (fresh : Nat)
    (hmiss : ∀ script, rt.scripts[handle.index]? = some script →
        assocLookup (name, args) script.methods = none)
    (habsent : reply.out = 0) (herr : reply.err ≤ 0) :
    Runtime.get_method rt handle name args reply fresh = (.ok none, rt) := by
  have hlib : RuntimeLibrary.get_method reply = .ok none := by
    unfold RuntimeLibrary.get_method
    rw [if_neg (by omega), if_pos habsent]
  unfold Runtime.get_method
  cases hs : rt.scripts[handle.index]? with
  | none => rfl
  | some script =>
    dsimp only
    rw [hmiss script hs, hlib]

/-- Runtime holding one registered script with an empty method cache, for
the C6 witness. -/
def rtAbsent : Runtime := ⟨some ⟨1⟩, [], [("Player", 0)], [⟨"Player", ⟨2⟩, [], ⟨[], []⟩⟩]⟩

/-- Witness for the C6 theorem at concrete inputs: requesting an absent
method (managed reply: null handle, status 0) yields Ok(None). -/
theorem absent_method_negative_result_witness :
    Runtime.get_method rtAbsent ⟨0, ⟨9⟩⟩ "Missing" 2 ⟨0, 0⟩ 0 = (.ok none, rtAbsent) := by
  exact absent_method_negative_result rtAbsent ⟨0, ⟨9⟩⟩ "Missing" 2 ⟨0, 0⟩ 0
    (fun script h => by
      have h' : some (⟨"Player", ⟨2⟩, [], ⟨[], []⟩⟩ : ScriptType) = some script := h
      injection h' with h2
      rw [← h2]
      rfl)
    rfl (by decide)

/-- C10: a Script handle whose index is stale (at or beyond the scripts
registry length, as after a clear truncated the registry) makes
Runtime::get_meta_data hit the unwrap and panic (the none result), while
Runtime::get_method under the same violation returns Ok(None) without
panicking; with a valid index get_meta_data returns the cached metadata. -/
theorem stale_index_panics_meta_not_method (rt : Runtime) (handle : Script) :
    (rt.scripts.length ≤ handle.index →
      Runtime.get_meta_data rt handle = none ∧
      (∀ (name : String) (args : Int) (reply : HostReply) (fresh : Nat),
        Runtime.get_method rt handle name args reply fresh = (.ok none, rt))) ∧
    (handle.index < rt.scripts.length →
      (Runtime.get_meta_data rt handle).isSome = true) := by
  constructor
  · intro h
    have hnone : rt.scripts[handle.index]? = none := listGetNone _ _ h
    constructor
    · unfold Runtime.get_meta_data
      rw [hnone]
      rfl
    · intro name args reply fresh
      unfold Runtime.get_method
      rw [hnone]
  · intro h
    unfold Runtime.get_meta_data
    simpa using listGetIsSome _ _ h

/-- Witness for the C10 theorem at a concrete input: on an empty registry
(as left by clear) a Script with index 0 makes get_meta_data panic (none)
and get_method return Ok(None). -/
theorem stale_index_panics_meta_not_method_witness :
    Runtime.get_meta_data ⟨none, [], [], []⟩ ⟨0, ⟨9⟩⟩ = none ∧
    Runtime.get_method ⟨none, [], [], []⟩ ⟨0, ⟨9⟩⟩ "Update" 1 ⟨4, 0⟩ 0
      = (.ok none, ⟨none, [], [], []⟩) := by
  have h := (stale_index_panics_meta_not_method ⟨none, [], [], []⟩ ⟨0, ⟨9⟩⟩).1 (by decide)
  exact ⟨h.1, h.2 "Update" 1 ⟨4, 0⟩ 0⟩

/-- C4: when clear() returns Ok, the registry is fully purged and a fresh
scope is installed: the name map, script list and assembly map are empty,
so create fails with ClassNotRegistered for every name until a new
register, and get_method finds no previously cached Method for any
handle; moreover, when a scope was present and the managed Unload wrote a
positive status, clear surfaces it as the corresponding typed error. -/
theorem clear_purges_registry (rt : Runtime) (ns : Scope) (st : Int) :
    ((Runtime.clear rt ns st).1 = .ok () →
      (Runtime.clear rt ns st).2.1.fullname_to_script = [] ∧
      (Runtime.clear rt ns st).2.1.scripts = [] ∧
      (Runtime.clear rt ns st).2.1.assemblies = [] ∧
      (Runtime.clear rt ns st).2.1.scope = some ns ∧
      (∀ (name : String) (r : HostReply),
        Runtime.create (Runtime.clear rt ns st).2.1 name r
          = some (.error .ClassNotRegistered)) ∧
      (∀ (handle : Script) (name : String) (args : Int) (r : HostReply) (f : Nat),
        (Runtime.get_method (Runtime.clear rt ns st).2.1 handle name args r f).1
          = .ok none)) ∧
    (∀ (s : Scope), rt.scope = some s → 0 < st →
      (Runtime.clear rt ns st).1 = .error (Error.fromStatus st)) := by
  have hstate : (Runtime.clear rt ns st).2.1 = ⟨some ns, [], [], []⟩ := by
    unfold Runtime.clear
    cases rt.scope with
    | none => rfl
    | some old =>
      dsimp only
      split <;> rfl
  constructor
  · intro _
    rw [hstate]
    refine ⟨rfl, rfl, rfl, rfl, fun name r => rfl, fun handle name args r f => ?_⟩
    unfold Runtime.get_method
    rw [listGetNone _ _ (by simp)]
  · intro s hs hst
    unfold Runtime.clear
    rw [hs]
    dsimp only
    rw [if_pos hst]

/-- Runtime with a live scope, a loaded Scripts assembly and one registered
script carrying a cached method, for the C4 witness. -/
def rtClearW : Runtime :=
  ⟨some ⟨3⟩, [(.Scripts, ⟨1⟩)], [("Player", 0)],
   [⟨"Player", ⟨2⟩, [(("Update", 1), ⟨5, ⟨4⟩⟩)], ⟨[], []⟩⟩]⟩

/-- Witness for the C4 theorem at concrete inputs: after a successful
clear, creating the previously registered name fails with
ClassNotRegistered and the previously cached ("Update", 1) Method is no
longer resolvable through get_method. -/
theorem clear_purges_registry_witness :
    Runtime.create (Runtime.clear rtClearW ⟨6⟩ 0).2.1 "Player" ⟨7, 0⟩
      = some (.error .ClassNotRegistered) ∧
    (Runtime.get_method (Runtime.clear rtClearW ⟨6⟩ 0).2.1 ⟨0, ⟨9⟩⟩ "Update" 1 ⟨0, 0⟩ 1).1
      = .ok none := by
  have h := (clear_purges_registry rtClearW ⟨6⟩ 0).1 rfl
  exact ⟨h.2.2.2.2.1 "Player" ⟨7, 0⟩, h.2.2.2.2.2 ⟨0, ⟨9⟩⟩ "Update" 1 ⟨0, 0⟩ 1⟩

/-- C5: create(name) before any successful register(name) fails with
ClassNotRegistered (for every managed reply — the managed side is not
even consulted); after a successful register(name), create(name) succeeds
and returns a distinct Object on each call, the managed New entry point
being modelled per spec as returning a fresh non-null handle with a
non-positive status on each construction (distinct out pointers for the
two calls). -/
theorem create_requires_registration (rt : Runtime) (name : String)
    (classReply : HostReply) (metaReply : MetaReply) (r1 r2 : HostReply)
    (hr1 : r1.out ≠ 0) (he1 : r1.err ≤ 0) (hr2 : r2.out ≠ 0) (he2 : r2.err ≤ 0)
    (hfresh : r1.out ≠ r2.out) :
    (assocLookup name rt.fullname_to_script = none →
      ∀ r : HostReply, Runtime.create rt name r = some (.error .ClassNotRegistered)) ∧
    ((Runtime.register rt name classReply metaReply).1 = .ok () →
      Runtime.create (Runtime.register rt name classReply metaReply).2 name r1
        = some (.ok ⟨rt.scripts.length, ⟨r1.out⟩⟩) ∧
      Runtime.create (Runtime.register rt name classReply metaReply).2 name r2
        = some (.ok ⟨rt.scripts.length, ⟨r2.out⟩⟩) ∧
      (⟨r1.out⟩ : Object) ≠ ⟨r2.out⟩) := by
  constructor
  · intro h r
    unfold Runtime.create
    rw [h]
  · intro hok
    have hshape : ∃ cls md,
        (Runtime.register rt name classReply metaReply).2
          = ⟨rt.scope, rt.assemblies,
             (name, rt.scripts.length) :: rt.fullname_to_script,
             rt.scripts ++ [⟨name, cls, [], md⟩]⟩ := by
      unfold Runtime.register at hok ⊢
      cases hA : assocLookup AssemblyType.Scripts rt.assemblies with
      | none => rw [hA] at hok; simp at hok
      | some asm =>
        rw [hA] at hok
        dsimp only at hok ⊢
        cases hC : RuntimeLibrary.get_class classReply with
        | error e => rw [hC] at hok; simp at hok
        | ok oc =>
          cases oc with
          | none => rw [hC] at hok; simp at hok
          | some cls =>
            rw [hC] at hok
            dsimp only at hok ⊢
            cases hM : metaCallResult metaReply with
            | mk mres mevs =>
              cases mres with
              | error e => rw [hM] at hok; simp at hok
              | ok md => exact ⟨cls, md, rfl⟩
    obtain ⟨cls, md, hstate⟩ := hshape
    rw [hstate]
    have hcreate : ∀ r : HostReply, r.out ≠ 0 → r.err ≤ 0 →
        Runtime.create
          (⟨rt.scope, rt.assemblies,
            (name, rt.scripts.length) :: rt.fullname_to_script,
            rt.scripts ++ [⟨name, cls, [], md⟩]⟩ : Runtime) name r
          = some (.ok ⟨rt.scripts.length, ⟨r.out⟩⟩) := by
      intro r hro hre
      unfold Runtime.create
      rw [assocLookup_cons_self]
      dsimp only
      rw [listGetAppendLen]
      unfold RuntimeLibrary.new_object
      rw [if_neg (by omega), if_neg hro]
    refine ⟨hcreate r1 hr1 he1, hcreate r2 hr2 he2, ?_⟩
    intro h
    exact hfresh (congrArg Object.inner h)

/-- Runtime with a loaded Scripts assembly and an empty registry, for the
C5 witness. -/
def rtReg : Runtime := ⟨some ⟨1⟩, [(.Scripts, ⟨2⟩)], [], []⟩

/-- Witness for the C5 theorem at concrete inputs: before registration
create fails with ClassNotRegistered; after registering the name
(class handle 5, empty metadata) two creates succeed with the distinct
fresh object handles 3 and 4. -/
theorem create_requires_registration_witness :
    Runtime.create rtReg "Player" ⟨3, 0⟩ = some (.error .ClassNotRegistered) ∧
    Runtime.create (Runtime.register rtReg "Player" ⟨5, 0⟩ ⟨0, 0, none⟩).2 "Player" ⟨3, 0⟩
      = some (.ok ⟨0, ⟨3⟩⟩) ∧
    Runtime.create (Runtime.register rtReg "Player" ⟨5, 0⟩ ⟨0, 0, none⟩).2 "Player" ⟨4, 0⟩
      = some (.ok ⟨0, ⟨4⟩⟩) := by
  have h := create_requires_registration rtReg "Player" ⟨5, 0⟩ ⟨0, 0, none⟩ ⟨3, 0⟩ ⟨4, 0⟩
    (by decide) (by decide) (by decide) (by decide) (by decide)
  have h2 := h.2 rfl
  exact ⟨h.1 rfl ⟨3, 0⟩, h2.1, h2.2.1⟩

end CsManaged
